import Mathlib

/-!
Verification of the `synced` Go package (instrumented mutexes, counter, flag,
queue) against its natural-language specification.

The Go code is shallowly embedded: each exported operation becomes a pure
Lean function from an explicit state to a new state plus a list of observable
events.  The concurrency-free parts (Counter, Queue) are embedded directly;
the instrumented `Mutex`/`RWMutex` are embedded as sequential state
transformers observed at operation boundaries, with the watchdog goroutine
represented by a count of alive watchdog tasks and the blocking channel
hand-off represented by an explicit `blocked` outcome flag.

Conventions:
 - `time.Duration` and `time.Time` are modelled as `Int` (nanoseconds);
   the `time.Time` zero value is `Option.none`.
 - Go `nil`-able function fields are modelled as `HookSlot`: a slot is
   absent (`unset`), holds the default callback installed by the
   constructor (`defaultHook`), or holds a user-supplied callback
   (`userHook`).  Invoking a present slot emits an event; the default
   callbacks additionally perform the watchdog bookkeeping that their Go
   bodies perform.
 - The release of a not-write-locked `sync.RWMutex` is modelled as raising
   a recoverable panic, which is what the code's own documentation and the
   spec assume of the underlying primitive (`mutex.go` doc comments, spec
   §9: "represent as an explicit fallible release operation").
 - `time.Ticker.Reset(d)` panics when `d <= 0`; this documented behavior is
   modelled by the lock path producing an escaped panic in that case.
-/

namespace Synced

/-- A Go duration (`time.Duration`), int64 nanoseconds. -/
abbrev Duration := Int

/-- State of a `time.Ticker`: its current period and whether it is running
(`Stop` stops it, `Reset` restarts it with a new period). -/
structure Ticker where
  period : Duration
  running : Bool
  deriving DecidableEq, Repr

/-- A nil-able Go callback field. `unset` is Go `nil`; `defaultHook` is the
callback installed by `NewMutex`/`NewRWMutex`; `userHook` is any
caller-assigned callback (modelled as only emitting its invocation event). -/
inductive HookSlot where
  | unset
  | defaultHook
  | userHook
  deriving DecidableEq, Repr

/-- Observable events of one instrumented-mutex operation: each hook
invocation, carrying the tag value the hook can observe where relevant, and
the recovered value passed to a recover hook. -/
inductive Event where
  | beforeLockInvoked
  | afterLockInvoked (tag : Option String)
  | beforeUnlockInvoked
  | afterUnlockInvoked (tag : Option String)
  | afterUnlockRecoverInvoked (r : Option String)
  | beforeRLockInvoked
  | afterRLockInvoked
  | beforeRUnlockInvoked
  | afterRUnlockInvoked
  | afterRUnlockRecoverInvoked (r : Option String)
  deriving DecidableEq, Repr

/-- True exactly on `afterUnlockInvoked` events. -/
def Event.isAfterUnlockEvt : Event → Bool
  | Event.afterUnlockInvoked _ => true
  | _ => false

/-- True exactly on `afterUnlockRecoverInvoked` events. -/
def Event.isAfterUnlockRecoverEvt : Event → Bool
  | Event.afterUnlockRecoverInvoked _ => true
  | _ => false

/-- True exactly on `afterRUnlockRecoverInvoked` events. -/
def Event.isAfterRUnlockRecoverEvt : Event → Bool
  | Event.afterRUnlockRecoverInvoked _ => true
  | _ => false

/-- `MutexParams` from `mutex.go` (`Timeout` is a `time.Duration`). -/
structure MutexParams where
  Name : String
  SetDefaultCallbacks : Bool
  AddStackTrace : Bool
  Timeout : Duration
  deriving DecidableEq, Repr

/-- State of `synced.Mutex` (`mutex.go`).  The underlying `sync.RWMutex`
`mu` is its write-held flag `locked` plus its reader count `readers`;
`watchdogCount` counts alive watchdog goroutines; `closeC` records whether
the cancellation channel has been allocated; `hwt` is the
`haveWarningTimeout := p.Timeout > 0` value captured by the default
callbacks at construction.  Note the Go constructor never assigns the
`timeout` field, so it keeps its zero value. -/
structure Mutex where
  Name : String
  locked : Bool
  readers : Nat
  lockedAt : Option Int
  timeout : Duration
  ticker : Option Ticker
  closeC : Bool
  lockTag : Option String
  watchdogCount : Nat
  hwt : Bool
  BeforeLock : HookSlot
  AfterLock : HookSlot
  BeforeUnlock : HookSlot
  AfterUnlock : HookSlot
  AfterUnlockRecover : HookSlot
  deriving DecidableEq, Repr

/-- Outcome of one operation: the new state, the events emitted, the panic
value (if any) escaping to the caller, and whether the operation blocked
forever (a channel send with no receiver, or acquiring a lock the single
sequential caller already holds). -/
structure MutexOut where
  m : Mutex
  events : List Event
  escaped : Option String
  blocked : Bool
  deriving DecidableEq, Repr

/-- The panic value of `time.Ticker.Reset` on a non-positive duration. -/
def tickerResetPanicMsg : String := "non-positive interval for Ticker.Reset"

/-- The fault raised by releasing a `sync.RWMutex` that is not write-locked. -/
def unlockFaultMsg : String := "sync: Unlock of unlocked RWMutex"

/-- The fault raised by read-releasing a `sync.RWMutex` with no read holders. -/
def rUnlockFaultMsg : String := "sync: RUnlock of unlocked RWMutex"

/-- `NewMutex` (`mutex.go` lines 66-130).  A ticker with period `p.Timeout`
and a cancellation channel are created only when `p.Timeout > 0`; all five
hook slots get the default callbacks when `p.SetDefaultCallbacks`.  The
`timeout` field is never assigned and keeps its zero value. -/
def NewMutex (p : MutexParams) : Mutex :=
  let hwt := decide (0 < p.Timeout)
  let slot := if p.SetDefaultCallbacks then HookSlot.defaultHook else HookSlot.unset
  { Name := p.Name
    locked := false
    readers := 0
    lockedAt := Option.none
    timeout := 0
    ticker := if hwt then Option.some ⟨p.Timeout, true⟩ else Option.none
    closeC := hwt
    lockTag := Option.none
    watchdogCount := 0
    hwt := hwt
    BeforeLock := slot
    AfterLock := slot
    BeforeUnlock := slot
    AfterUnlock := slot
    AfterUnlockRecover := slot }

/-- The third step of `Mutex.lock` (`mutex.go` lines 143-152), taken after
the tag (if any) is already stored in `m2`: invoke `AfterLock` if present.
The default `AfterLock` (`mutex.go` lines 76-113), when
`haveWarningTimeout`, arms the watchdog: fresh `closeC`, `lockedAt := now`,
spawn the watchdog goroutine, then `ticker.Reset(m.timeout)` — which panics
when `m.timeout` is not positive. -/
def Mutex.afterLockStep (m2 : Mutex) (now : Int) (ev1 : List Event) : MutexOut :=
  let ev2 : List Event :=
    if m2.AfterLock = HookSlot.unset then [] else [Event.afterLockInvoked m2.lockTag]
  if m2.AfterLock = HookSlot.defaultHook ∧ m2.hwt = true then
    let m3 : Mutex :=
      { m2 with closeC := true, lockedAt := Option.some now,
                watchdogCount := m2.watchdogCount + 1 }
    if m3.timeout ≤ 0 then
      ⟨m3, ev1 ++ ev2, Option.some tickerResetPanicMsg, false⟩
    else
      ⟨{ m3 with ticker := Option.some ⟨m3.timeout, true⟩ }, ev1 ++ ev2, Option.none, false⟩
  else
    ⟨m2, ev1 ++ ev2, Option.none, false⟩

/-- `Mutex.lock` (`mutex.go` lines 132-153): invoke `BeforeLock` if present,
acquire `mu` exclusively (blocking), store the tag if one was supplied, then
run the `AfterLock` step (`Mutex.afterLockStep`). -/
def Mutex.lock (m : Mutex) (tag : Option String) (now : Int) : MutexOut :=
  let ev1 : List Event :=
    if m.BeforeLock = HookSlot.unset then [] else [Event.beforeLockInvoked]
  if m.locked = true ∨ m.readers ≠ 0 then
    -- the single sequential caller would block forever on mu.Lock()
    ⟨m, ev1, Option.none, true⟩
  else
    let m1 : Mutex := { m with locked := true }
    let m2 : Mutex := if tag.isSome then { m1 with lockTag := tag } else m1
    Mutex.afterLockStep m2 now ev1

/-- `Mutex.Lock` (`mutex.go` line 157): `m.lock(nil)`. -/
def Mutex.Lock (m : Mutex) (now : Int) : MutexOut := Mutex.lock m Option.none now

/-- `Mutex.LockWithTag` (`mutex.go` line 160): `m.lock(&tag)`. -/
def Mutex.LockWithTag (m : Mutex) (tag : String) (now : Int) : MutexOut :=
  Mutex.lock m (Option.some tag) now

/-- Stopping a ticker (`ticker.Stop()`). -/
def stopTicker (t : Option Ticker) : Option Ticker :=
  t.map fun tk => { tk with running := false }

/-- Steps 2-4 of `Unlock` (`mutex.go` lines 175-197): clear the tag, release
the primitive under the deferred `recover()`, then invoke `AfterUnlock`.  If
the release faults (the `RWMutex` is not write-locked), the recovered value
goes to `AfterUnlockRecover` (if present) and the `AfterUnlock` invocation is
skipped; nothing escapes to the caller. -/
def Mutex.unlockRest (m : Mutex) (ev1 : List Event) : MutexOut :=
  let m2 : Mutex := { m with lockTag := Option.none }
  if m2.locked = true then
    let m3 : Mutex := { m2 with locked := false }
    let ev4 : List Event :=
      if m3.AfterUnlock = HookSlot.unset then [] else [Event.afterUnlockInvoked m3.lockTag]
    ⟨m3, ev1 ++ ev4, Option.none, false⟩
  else
    let evR : List Event :=
      if m2.AfterUnlockRecover = HookSlot.unset then []
      else [Event.afterUnlockRecoverInvoked (Option.some unlockFaultMsg)]
    ⟨m2, ev1 ++ evR, Option.none, false⟩

/-- `Mutex.Unlock` (`mutex.go` lines 166-198): invoke `BeforeUnlock` if
present (the default, when `haveWarningTimeout`, stops the ticker, zeroes
`lockedAt` and sends on `closeC` — blocking forever if no watchdog goroutine
is alive to receive); then clear `lockTag`, release `mu` under the panic
interception, and invoke `AfterUnlock` (see `Mutex.unlockRest`). -/
def Mutex.Unlock (m : Mutex) : MutexOut :=
  let ev1 : List Event :=
    if m.BeforeUnlock = HookSlot.unset then [] else [Event.beforeUnlockInvoked]
  if m.BeforeUnlock = HookSlot.defaultHook ∧ m.hwt = true then
    let mA : Mutex := { m with ticker := stopTicker m.ticker, lockedAt := Option.none }
    if mA.watchdogCount = 0 then
      -- `m.closeC <- struct{}{}` with no receiver: blocks forever
      ⟨mA, ev1, Option.none, true⟩
    else
      Mutex.unlockRest { mA with watchdogCount := mA.watchdogCount - 1 } ev1
  else
    Mutex.unlockRest m ev1

/-- The body of one watchdog tick (`mutex.go` lines 88-105): warn exactly
when `lockedAt` is not the zero time and `now - lockedAt >= m.timeout`.
Note the threshold compared is the (never-initialized) `timeout` field. -/
def watchdogTickWarns (m : Mutex) (now : Int) : Bool :=
  match m.lockedAt with
  | Option.none => false
  | Option.some t => decide (m.timeout ≤ now - t)

/-- `synced.RWMutex` (`rwmutex.go`): an embedded `Mutex` plus the five
shared-path hook slots. -/
structure RWMutex where
  mtx : Mutex
  BeforeRLock : HookSlot
  AfterRLock : HookSlot
  BeforeRUnlock : HookSlot
  AfterRUnlock : HookSlot
  AfterRUnlockRecover : HookSlot
  deriving DecidableEq, Repr

/-- Outcome of one `RWMutex` operation. -/
structure RWMutexOut where
  w : RWMutex
  events : List Event
  escaped : Option String
  blocked : Bool
  deriving DecidableEq, Repr

/-- `NewRWMutex` (`rwmutex.go` lines 15-26): wraps `NewMutex p` and installs
the default shared-path callbacks when `p.SetDefaultCallbacks` (they only
log; they do no watchdog bookkeeping). -/
def NewRWMutex (p : MutexParams) : RWMutex :=
  let slot := if p.SetDefaultCallbacks then HookSlot.defaultHook else HookSlot.unset
  { mtx := NewMutex p
    BeforeRLock := slot
    AfterRLock := slot
    BeforeRUnlock := slot
    AfterRUnlock := slot
    AfterRUnlockRecover := slot }

/-- `RWMutex.RLock` (`rwmutex.go` lines 30-48): invoke `BeforeRLock` if
present, acquire `mu` in shared mode (blocking while write-held), invoke
`AfterRLock` if present.  No tag or watchdog state is touched. -/
def RWMutex.RLock (w : RWMutex) : RWMutexOut :=
  let ev1 : List Event :=
    if w.BeforeRLock = HookSlot.unset then [] else [Event.beforeRLockInvoked]
  if w.mtx.locked = true then
    -- the single sequential caller would block forever on mu.RLock()
    ⟨w, ev1, Option.none, true⟩
  else
    let w2 : RWMutex := { w with mtx := { w.mtx with readers := w.mtx.readers + 1 } }
    let ev2 : List Event :=
      if w2.AfterRLock = HookSlot.unset then [] else [Event.afterRLockInvoked]
    ⟨w2, ev1 ++ ev2, Option.none, false⟩

/-- `RWMutex.RUnlock` (`rwmutex.go` lines 54-85): invoke `BeforeRUnlock` if
present; release `mu` in shared mode under the deferred `recover()` — a
release with no read holders faults, the recovered value goes to
`AfterRUnlockRecover` (if present) and `AfterRUnlock` is skipped; otherwise
invoke `AfterRUnlock` if present.  Nothing escapes to the caller. -/
def RWMutex.RUnlock (w : RWMutex) : RWMutexOut :=
  let ev1 : List Event :=
    if w.BeforeRUnlock = HookSlot.unset then [] else [Event.beforeRUnlockInvoked]
  if w.mtx.readers = 0 then
    let evR : List Event :=
      if w.AfterRUnlockRecover = HookSlot.unset then []
      else [Event.afterRUnlockRecoverInvoked (Option.some rUnlockFaultMsg)]
    ⟨w, ev1 ++ evR, Option.none, false⟩
  else
    let w2 : RWMutex := { w with mtx := { w.mtx with readers := w.mtx.readers - 1 } }
    let ev2 : List Event :=
      if w2.AfterRUnlock = HookSlot.unset then [] else [Event.afterRUnlockInvoked]
    ⟨w2, ev1 ++ ev2, Option.none, false⟩

/-- Queue mode constant `modeNormal` (Go `iota` value 0). -/
def modeNormal : Int := 0

/-- Queue mode constant `modeDrop` (Go `iota` value 1). -/
def modeDrop : Int := 1

/-- The queue error values (`ErrQueueIsEmpty`, `ErrQueueOverflowed`, and
the wrapper built by `ErrFailedToDrop`). -/
inductive QErr where
  | ErrQueueIsEmpty
  | ErrQueueOverflowed
  | ErrFailedToDrop (e : QErr)
  deriving DecidableEq, Repr

/-- `synced.Queue`: element slice, `maxLen` (a Go `int`; `0` means
unbounded), and `mode`. -/
structure Queue (α : Type) where
  queue : List α
  maxLen : Int
  mode : Int
  deriving DecidableEq, Repr

/-- `NewQueue`: unbounded, normal mode. -/
def NewQueue (α : Type) : Queue α := ⟨[], 0, modeNormal⟩

/-- `NewLimitedQueue`: bounded by `max`, normal mode. -/
def NewLimitedQueue (α : Type) (max : Int) : Queue α := ⟨[], max, modeNormal⟩

/-- `NewDroppingQueue`: bounded by `max`, drop-oldest mode. -/
def NewDroppingQueue (α : Type) (max : Int) : Queue α := ⟨[], max, modeDrop⟩

/-- `Queue.len`: `len(q.queue)` as a Go `int`. -/
def Queue.len {α : Type} (q : Queue α) : Int := (q.queue.length : Int)

/-- Unexported `Queue.pop`: returns `(nil, ErrQueueIsEmpty)` on an empty
queue, otherwise the head, with the queue advanced past it. -/
def Queue.pop {α : Type} (q : Queue α) : Option α × Queue α × Option QErr :=
  match q.queue with
  | [] => (Option.none, q, Option.some QErr.ErrQueueIsEmpty)
  | x :: rest => (Option.some x, { q with queue := rest }, Option.none)

/-- `Queue.Push`: append when unbounded or not yet full; when full, return
`ErrQueueOverflowed` in normal mode, or in drop mode pop the oldest element
(wrapping a pop failure in `ErrFailedToDrop`) and append; any other mode
falls through returning no error and not appending. -/
def Queue.Push {α : Type} (q : Queue α) (object : α) : Queue α × Option QErr :=
  if q.maxLen = 0 ∨ q.len < q.maxLen then
    ({ q with queue := q.queue ++ [object] }, Option.none)
  else if q.mode = modeNormal then
    (q, Option.some QErr.ErrQueueOverflowed)
  else if q.mode = modeDrop then
    match Queue.pop q with
    | (_, _, Option.some e) => (q, Option.some (QErr.ErrFailedToDrop e))
    | (_, q2, Option.none) => ({ q2 with queue := q2.queue ++ [object] }, Option.none)
  else
    (q, Option.none)

/-- `Queue.Pop`: the exported pop (takes the lock, then `q.pop()`). -/
def Queue.Pop {α : Type} (q : Queue α) : Option α × Queue α × Option QErr :=
  Queue.pop q

/-- `Queue.Get`: peek at the head without removing it. -/
def Queue.Get {α : Type} (q : Queue α) : Option α × Option QErr :=
  match q.queue with
  | [] => (Option.none, Option.some QErr.ErrQueueIsEmpty)
  | x :: _ => (Option.some x, Option.none)

/-- Reduce an unbounded integer into a signed 64-bit Go `int`
(two's-complement wrap-around). -/
def i64wrap (z : Int) : Int := (z + 2 ^ 63) % 2 ^ 64 - 2 ^ 63

/-- `synced.Counter` (`counter.go` lines 53-57): the protected count.
The Go field is a 64-bit `int`; arithmetic on it wraps. -/
structure Counter where
  count : Int
  deriving DecidableEq, Repr

/-- `NewCounter` (`counter.go` line 60). -/
def NewCounter (initialValue : Int) : Counter := ⟨initialValue⟩

/-- `Counter.Inc` (`counter.go` lines 69-75): returns the original value;
the stored count becomes `count+1` (as a wrapping Go `int`). -/
def Counter.Inc (c : Counter) : Int × Counter :=
  (c.count, ⟨i64wrap (c.count + 1)⟩)

/-- `Counter.Dec` (`counter.go` lines 87-93): returns the original value;
the stored count becomes `count-1` (as a wrapping Go `int`). -/
def Counter.Dec (c : Counter) : Int × Counter :=
  (c.count, ⟨i64wrap (c.count - 1)⟩)

/-- `Counter.Add` (`counter.go` lines 78-84): returns the original value;
the stored count becomes `count+i` (as a wrapping Go `int`). -/
def Counter.Add (c : Counter) (i : Int) : Int × Counter :=
  (c.count, ⟨i64wrap (c.count + i)⟩)

/-- `Counter.Set` (`counter.go` lines 96-102): returns the original value;
the stored count becomes `i`. -/
def Counter.Set (c : Counter) (i : Int) : Int × Counter :=
  (c.count, ⟨i⟩)

/-- `Counter.Get` (`counter.go` lines 105-109): returns the current value,
leaving the counter unchanged. -/
def Counter.Get (c : Counter) : Int × Counter :=
  (c.count, c)

/-- `i64wrap` is the identity on values already inside the signed 64-bit
range. -/
lemma i64wrap_eq_self {z : Int} (h1 : -(2 ^ 63) ≤ z) (h2 : z < 2 ^ 63) :
    i64wrap z = z := by
  unfold i64wrap
  have h3 : (0 : Int) ≤ z + 2 ^ 63 := by linarith
  have h4 : z + 2 ^ 63 < 2 ^ 64 := by
    have he : (2 : Int) ^ 64 = 2 ^ 63 + 2 ^ 63 := by norm_num
    linarith
  rw [Int.emod_eq_of_lt h3 h4]
  ring

/-- Behavior of a non-blocking `Mutex.lock` from an unlocked state: the lock
is acquired, the tag is stored exactly when one was supplied, the hook slots
are untouched, the watchdog count grows by one exactly when the default
`AfterLock` with an armed warning timeout runs, and the events are the
`BeforeLock` and `AfterLock` invocations (the latter observing the stored
tag). -/
lemma afterLockStep_spec (m2 : Mutex) (now : Int) (ev1 : List Event) :
    (Mutex.afterLockStep m2 now ev1).m.Name = m2.Name ∧
    (Mutex.afterLockStep m2 now ev1).m.locked = m2.locked ∧
    (Mutex.afterLockStep m2 now ev1).m.readers = m2.readers ∧
    (Mutex.afterLockStep m2 now ev1).m.timeout = m2.timeout ∧
    (Mutex.afterLockStep m2 now ev1).m.lockTag = m2.lockTag ∧
    (Mutex.afterLockStep m2 now ev1).m.BeforeLock = m2.BeforeLock ∧
    (Mutex.afterLockStep m2 now ev1).m.AfterLock = m2.AfterLock ∧
    (Mutex.afterLockStep m2 now ev1).m.BeforeUnlock = m2.BeforeUnlock ∧
    (Mutex.afterLockStep m2 now ev1).m.AfterUnlock = m2.AfterUnlock ∧
    (Mutex.afterLockStep m2 now ev1).m.AfterUnlockRecover = m2.AfterUnlockRecover ∧
    (Mutex.afterLockStep m2 now ev1).m.hwt = m2.hwt ∧
    (Mutex.afterLockStep m2 now ev1).m.lockedAt =
      (if m2.AfterLock = HookSlot.defaultHook ∧ m2.hwt = true
       then Option.some now else m2.lockedAt) ∧
    (Mutex.afterLockStep m2 now ev1).m.closeC =
      (if m2.AfterLock = HookSlot.defaultHook ∧ m2.hwt = true
       then true else m2.closeC) ∧
    (Mutex.afterLockStep m2 now ev1).m.watchdogCount =
      (if m2.AfterLock = HookSlot.defaultHook ∧ m2.hwt = true
       then m2.watchdogCount + 1 else m2.watchdogCount) ∧
    (Mutex.afterLockStep m2 now ev1).m.ticker =
      (if m2.AfterLock = HookSlot.defaultHook ∧ m2.hwt = true ∧ ¬ m2.timeout ≤ 0
       then Option.some ⟨m2.timeout, true⟩ else m2.ticker) ∧
    (Mutex.afterLockStep m2 now ev1).escaped =
      (if m2.AfterLock = HookSlot.defaultHook ∧ m2.hwt = true ∧ m2.timeout ≤ 0
       then Option.some tickerResetPanicMsg else Option.none) ∧
    (Mutex.afterLockStep m2 now ev1).blocked = false ∧
    (Mutex.afterLockStep m2 now ev1).events =
      ev1 ++ (if m2.AfterLock = HookSlot.unset then []
              else [Event.afterLockInvoked m2.lockTag]) := by
  simp only [Mutex.afterLockStep]
  split_ifs <;> simp_all

lemma lock_spec (m : Mutex) (tag : Option String) (now : Int)
    (hl : m.locked = false) (hr : m.readers = 0) :
    (Mutex.lock m tag now).m.locked = true ∧
    (Mutex.lock m tag now).m.readers = m.readers ∧
    (Mutex.lock m tag now).m.lockTag = (if tag.isSome then tag else m.lockTag) ∧
    (Mutex.lock m tag now).m.BeforeLock = m.BeforeLock ∧
    (Mutex.lock m tag now).m.AfterLock = m.AfterLock ∧
    (Mutex.lock m tag now).m.BeforeUnlock = m.BeforeUnlock ∧
    (Mutex.lock m tag now).m.AfterUnlock = m.AfterUnlock ∧
    (Mutex.lock m tag now).m.AfterUnlockRecover = m.AfterUnlockRecover ∧
    (Mutex.lock m tag now).m.hwt = m.hwt ∧
    (Mutex.lock m tag now).m.watchdogCount =
      (if m.AfterLock = HookSlot.defaultHook ∧ m.hwt = true
       then m.watchdogCount + 1 else m.watchdogCount) ∧
    (Mutex.lock m tag now).blocked = false ∧
    (Mutex.lock m tag now).events =
      (if m.BeforeLock = HookSlot.unset then [] else [Event.beforeLockInvoked]) ++
      (if m.AfterLock = HookSlot.unset then []
       else [Event.afterLockInvoked (if tag.isSome then tag else m.lockTag)]) := by
  simp only [Mutex.lock, Mutex.afterLockStep, hl, hr]
  cases tag <;> split_ifs <;> simp_all

/-- Behavior of a non-blocking `Mutex.Unlock` from a locked state: the lock
is released, the tag cleared, nothing escapes, and the events are the
`BeforeUnlock` and `AfterUnlock` invocations. -/
lemma unlock_spec (m : Mutex) (hlocked : m.locked = true)
    (hnb : (Mutex.Unlock m).blocked = false) :
    (Mutex.Unlock m).m.locked = false ∧
    (Mutex.Unlock m).m.lockTag = Option.none ∧
    (Mutex.Unlock m).escaped = Option.none ∧
    (Mutex.Unlock m).events =
      (if m.BeforeUnlock = HookSlot.unset then [] else [Event.beforeUnlockInvoked]) ++
      (if m.AfterUnlock = HookSlot.unset then []
       else [Event.afterUnlockInvoked Option.none]) := by
  simp only [Mutex.Unlock, Mutex.unlockRest] at hnb ⊢
  split_ifs at hnb ⊢ <;> simp_all

/-- Behavior of a non-blocking `Mutex.Unlock` when the primitive is not
write-locked: its release faults, the fault is recovered, the recover hook
(if present) observes it, nothing escapes, and no `AfterUnlock` fires. -/
lemma unlock_fault_spec (m : Mutex) (hun : m.locked = false)
    (hnb : (Mutex.Unlock m).blocked = false) :
    (Mutex.Unlock m).escaped = Option.none ∧
    (Mutex.Unlock m).m.lockTag = Option.none ∧
    (Mutex.Unlock m).events =
      (if m.BeforeUnlock = HookSlot.unset then [] else [Event.beforeUnlockInvoked]) ++
      (if m.AfterUnlockRecover = HookSlot.unset then []
       else [Event.afterUnlockRecoverInvoked (Option.some unlockFaultMsg)]) := by
  simp only [Mutex.Unlock, Mutex.unlockRest] at hnb ⊢
  split_ifs at hnb ⊢ <;> simp_all

/-- `Mutex.Unlock` never lets a panic escape to its caller, in any state. -/
lemma unlock_escaped_none (m : Mutex) : (Mutex.Unlock m).escaped = Option.none := by
  simp only [Mutex.Unlock, Mutex.unlockRest]
  split_ifs <;> rfl

/-- `RWMutex.RUnlock` never lets a panic escape to its caller, in any state. -/
lemma runlock_escaped_none (w : RWMutex) :
    (RWMutex.RUnlock w).escaped = Option.none := by
  simp only [RWMutex.RUnlock]
  split_ifs <;> rfl

/-- State bookkeeping of `Mutex.Unlock` in every branch: the hook slots,
`hwt` and the reader count are untouched; the watchdog count drops by one
exactly when the default `BeforeUnlock` with an armed warning timeout runs;
the operation blocks exactly when that disarm path finds no alive watchdog
task; and unless it blocks, the lock ends up released. -/
lemma unlock_state_spec (m : Mutex) :
    (Mutex.Unlock m).m.BeforeLock = m.BeforeLock ∧
    (Mutex.Unlock m).m.AfterLock = m.AfterLock ∧
    (Mutex.Unlock m).m.BeforeUnlock = m.BeforeUnlock ∧
    (Mutex.Unlock m).m.AfterUnlock = m.AfterUnlock ∧
    (Mutex.Unlock m).m.AfterUnlockRecover = m.AfterUnlockRecover ∧
    (Mutex.Unlock m).m.hwt = m.hwt ∧
    (Mutex.Unlock m).m.readers = m.readers ∧
    (Mutex.Unlock m).m.watchdogCount =
      (if m.BeforeUnlock = HookSlot.defaultHook ∧ m.hwt = true
       then m.watchdogCount - 1 else m.watchdogCount) ∧
    ((Mutex.Unlock m).blocked = true ↔
      (m.BeforeUnlock = HookSlot.defaultHook ∧ m.hwt = true ∧ m.watchdogCount = 0)) ∧
    ((Mutex.Unlock m).blocked = false → (Mutex.Unlock m).m.locked = false) := by
  simp only [Mutex.Unlock, Mutex.unlockRest, stopTicker]
  split_ifs <;> simp_all

/-- A mutex state with every hook slot holding a user-assigned callback and
the primitive not held: `NewMutex ⟨"m", false, false, 0⟩` after the owner
assigned all five hook fields. -/
def mAllHooks : Mutex :=
  { Name := "m", locked := false, readers := 0, lockedAt := Option.none, timeout := 0,
    ticker := Option.none, closeC := false, lockTag := Option.none, watchdogCount := 0,
    hwt := false, BeforeLock := HookSlot.userHook, AfterLock := HookSlot.userHook,
    BeforeUnlock := HookSlot.userHook, AfterUnlock := HookSlot.userHook,
    AfterUnlockRecover := HookSlot.userHook }

/-- `mAllHooks` with the primitive write-held. -/
def mLockedAllHooks : Mutex := { mAllHooks with locked := true }

/-- An `RWMutex` around `mAllHooks` with all shared-path hooks assigned. -/
def wAllHooks : RWMutex :=
  { mtx := mAllHooks, BeforeRLock := HookSlot.userHook, AfterRLock := HookSlot.userHook,
    BeforeRUnlock := HookSlot.userHook, AfterRUnlock := HookSlot.userHook,
    AfterRUnlockRecover := HookSlot.userHook }

/-- C2: in a completed Lock/Unlock (or LockWithTag/Unlock) cycle with all
four lifecycle hooks non-nil, the emitted events are exactly `beforeLock,
afterLock, beforeUnlock, afterUnlock`, in that order, each exactly once. -/
theorem c2_hook_order (m : Mutex) (tag : Option String) (now : Int)
    (hl : m.locked = false) (hr : m.readers = 0)
    (h1 : m.BeforeLock ≠ HookSlot.unset) (h2 : m.AfterLock ≠ HookSlot.unset)
    (h3 : m.BeforeUnlock ≠ HookSlot.unset) (h4 : m.AfterUnlock ≠ HookSlot.unset)
    (hnb : (Mutex.Unlock (Mutex.lock m tag now).m).blocked = false) :
    (Mutex.lock m tag now).events ++ (Mutex.Unlock (Mutex.lock m tag now).m).events =
      [Event.beforeLockInvoked,
       Event.afterLockInvoked (if tag.isSome then tag else m.lockTag),
       Event.beforeUnlockInvoked,
       Event.afterUnlockInvoked Option.none] := by
  obtain ⟨hL1, -, -, -, -, hL6, hL7, -, -, -, -, hL12⟩ := lock_spec m tag now hl hr
  obtain ⟨-, -, -, hU4⟩ := unlock_spec _ hL1 hnb
  rw [hL12, hU4, hL6, hL7, if_neg h1, if_neg h2, if_neg h3, if_neg h4]
  rfl

/-- Witness for C2: a full tagged cycle on a mutex with user hooks in all
slots. -/
theorem c2_hook_order_witness :
    (Mutex.lock mAllHooks (Option.some "t") 3).events ++
      (Mutex.Unlock (Mutex.lock mAllHooks (Option.some "t") 3).m).events =
      [Event.beforeLockInvoked,
       Event.afterLockInvoked (Option.some "t"),
       Event.beforeUnlockInvoked,
       Event.afterUnlockInvoked Option.none] := by
  simpa using c2_hook_order mAllHooks (Option.some "t") 3 rfl rfl
    (by decide) (by decide) (by decide) (by decide) rfl

/-- C3: when releasing the underlying primitive faults during `Unlock` (the
primitive is not write-locked) or `RUnlock` (no read holders), the fault
never escapes to the caller; the recover hook, when set, observes the
non-nil recovered value, and when not set the fault is silently discarded
(no recover event at all). -/
theorem c3_unlock_panic_intercepted (m : Mutex) (w : RWMutex)
    (hm : m.locked = false) (hnb : (Mutex.Unlock m).blocked = false)
    (hw : w.mtx.readers = 0) :
    (Mutex.Unlock m).escaped = Option.none ∧
    (m.AfterUnlockRecover ≠ HookSlot.unset →
      Event.afterUnlockRecoverInvoked (Option.some unlockFaultMsg) ∈
        (Mutex.Unlock m).events) ∧
    (m.AfterUnlockRecover = HookSlot.unset →
      (Mutex.Unlock m).events.filter Event.isAfterUnlockRecoverEvt = []) ∧
    (RWMutex.RUnlock w).escaped = Option.none ∧
    (w.AfterRUnlockRecover ≠ HookSlot.unset →
      Event.afterRUnlockRecoverInvoked (Option.some rUnlockFaultMsg) ∈
        (RWMutex.RUnlock w).events) ∧
    (w.AfterRUnlockRecover = HookSlot.unset →
      (RWMutex.RUnlock w).events.filter Event.isAfterRUnlockRecoverEvt = []) := by
  obtain ⟨hE, -, hEv⟩ := unlock_fault_spec m hm hnb
  refine ⟨hE, ?_, ?_, runlock_escaped_none w, ?_, ?_⟩
  · intro hrcv
    rw [hEv, if_neg hrcv]
    by_cases hb : m.BeforeUnlock = HookSlot.unset <;> simp [hb]
  · intro hrcv
    rw [hEv, if_pos hrcv]
    by_cases hb : m.BeforeUnlock = HookSlot.unset <;>
      simp [hb, Event.isAfterUnlockRecoverEvt]
  · intro hrcv
    simp only [RWMutex.RUnlock, hw, if_pos rfl, if_neg hrcv]
    by_cases hb : w.BeforeRUnlock = HookSlot.unset <;> simp [hb]
  · intro hrcv
    simp only [RWMutex.RUnlock, hw, if_pos rfl, if_pos hrcv]
    by_cases hb : w.BeforeRUnlock = HookSlot.unset <;>
      simp [hb, Event.isAfterRUnlockRecoverEvt]

/-- Witness for C3: unlocking a never-locked mutex and read-unlocking a
never-read-locked rwmutex, with recover hooks set. -/
theorem c3_unlock_panic_intercepted_witness :
    (Mutex.Unlock mAllHooks).escaped = Option.none ∧
    Event.afterUnlockRecoverInvoked (Option.some unlockFaultMsg) ∈
      (Mutex.Unlock mAllHooks).events ∧
    (RWMutex.RUnlock wAllHooks).escaped = Option.none ∧
    Event.afterRUnlockRecoverInvoked (Option.some rUnlockFaultMsg) ∈
      (RWMutex.RUnlock wAllHooks).events := by
  have h := c3_unlock_panic_intercepted mAllHooks wAllHooks rfl rfl rfl
  exact ⟨h.1, h.2.1 (by decide), h.2.2.2.1, h.2.2.2.2.1 (by decide)⟩

/-- C4 is false as stated: on this unlocked mutex with a user `AfterUnlock`
hook and a recover hook, `Unlock`'s release faults, the recover hook fires,
and the present `AfterUnlock` hook is skipped (no `afterUnlock` event at
all), contradicting "invoked whenever it is present". -/
theorem c4_after_unlock_skipped_counterexample :
    mAllHooks.AfterUnlock ≠ HookSlot.unset ∧
    (Mutex.Unlock mAllHooks).events =
      [Event.beforeUnlockInvoked,
       Event.afterUnlockRecoverInvoked (Option.some unlockFaultMsg)] ∧
    (Mutex.Unlock mAllHooks).events.filter Event.isAfterUnlockEvt = [] := by
  exact ⟨by decide, rfl, rfl⟩

/-- C4 as amended: `afterUnlock`, when present, is invoked exactly when the
release of the primitive does not fault; when the release faults, the
`afterUnlock` hook is skipped and the recovered value is delivered to
`afterUnlockRecover` (when set) instead. -/
theorem c4_after_unlock_iff_release_ok (m : Mutex)
    (h4 : m.AfterUnlock ≠ HookSlot.unset)
    (hnb : (Mutex.Unlock m).blocked = false) :
    (m.locked = true →
      Event.afterUnlockInvoked Option.none ∈ (Mutex.Unlock m).events) ∧
    (m.locked = false →
      (Mutex.Unlock m).events.filter Event.isAfterUnlockEvt = [] ∧
      (m.AfterUnlockRecover ≠ HookSlot.unset →
        Event.afterUnlockRecoverInvoked (Option.some unlockFaultMsg) ∈
          (Mutex.Unlock m).events)) := by
  constructor
  · intro hl
    obtain ⟨-, -, -, hEv⟩ := unlock_spec m hl hnb
    rw [hEv, if_neg h4]
    by_cases hb : m.BeforeUnlock = HookSlot.unset <;> simp [hb]
  · intro hl
    obtain ⟨-, -, hEv⟩ := unlock_fault_spec m hl hnb
    rw [hEv]
    constructor
    · by_cases hb : m.BeforeUnlock = HookSlot.unset <;>
        by_cases hrcv : m.AfterUnlockRecover = HookSlot.unset <;>
        simp [hb, hrcv, Event.isAfterUnlockEvt]
    · intro hrcv
      rw [if_neg hrcv]
      by_cases hb : m.BeforeUnlock = HookSlot.unset <;> simp [hb]

/-- Witness for C4's amended statement: a held mutex fires `afterUnlock`,
and a never-locked one skips it while firing the recover hook. -/
theorem c4_after_unlock_iff_release_ok_witness :
    Event.afterUnlockInvoked Option.none ∈ (Mutex.Unlock mLockedAllHooks).events ∧
    (Mutex.Unlock mAllHooks).events.filter Event.isAfterUnlockEvt = [] ∧
    Event.afterUnlockRecoverInvoked (Option.some unlockFaultMsg) ∈
      (Mutex.Unlock mAllHooks).events := by
  have ha := c4_after_unlock_iff_release_ok mLockedAllHooks (by decide) rfl
  have hb := c4_after_unlock_iff_release_ok mAllHooks (by decide) rfl
  exact ⟨ha.1 rfl, (hb.2 rfl).1, (hb.2 rfl).2 (by decide)⟩

/-- `Lock()` behaves like `LockWithTag` except for the tag: every state
field other than `lockTag` agrees, and so do blocking and escaping. -/
lemma lock_vs_lockWithTag (m : Mutex) (x : String) (now : Int) :
    (Mutex.Lock m now).m.Name = (Mutex.LockWithTag m x now).m.Name ∧
    (Mutex.Lock m now).m.locked = (Mutex.LockWithTag m x now).m.locked ∧
    (Mutex.Lock m now).m.readers = (Mutex.LockWithTag m x now).m.readers ∧
    (Mutex.Lock m now).m.lockedAt = (Mutex.LockWithTag m x now).m.lockedAt ∧
    (Mutex.Lock m now).m.timeout = (Mutex.LockWithTag m x now).m.timeout ∧
    (Mutex.Lock m now).m.ticker = (Mutex.LockWithTag m x now).m.ticker ∧
    (Mutex.Lock m now).m.closeC = (Mutex.LockWithTag m x now).m.closeC ∧
    (Mutex.Lock m now).m.watchdogCount = (Mutex.LockWithTag m x now).m.watchdogCount ∧
    (Mutex.Lock m now).m.hwt = (Mutex.LockWithTag m x now).m.hwt ∧
    (Mutex.Lock m now).m.BeforeLock = (Mutex.LockWithTag m x now).m.BeforeLock ∧
    (Mutex.Lock m now).m.AfterLock = (Mutex.LockWithTag m x now).m.AfterLock ∧
    (Mutex.Lock m now).m.BeforeUnlock = (Mutex.LockWithTag m x now).m.BeforeUnlock ∧
    (Mutex.Lock m now).m.AfterUnlock = (Mutex.LockWithTag m x now).m.AfterUnlock ∧
    (Mutex.Lock m now).m.AfterUnlockRecover =
      (Mutex.LockWithTag m x now).m.AfterUnlockRecover ∧
    (Mutex.Lock m now).blocked = (Mutex.LockWithTag m x now).blocked ∧
    (Mutex.Lock m now).escaped = (Mutex.LockWithTag m x now).escaped := by
  by_cases hg : m.locked = true ∨ m.readers ≠ 0 <;>
    refine ⟨?_, ?_, ?_, ?_, ?_, ?_, ?_, ?_, ?_, ?_, ?_, ?_, ?_, ?_, ?_, ?_⟩ <;>
      simp [Mutex.Lock, Mutex.LockWithTag, Mutex.lock, hg, afterLockStep_spec]

/-- C5: a tag supplied via `LockWithTag` is stored before `afterLock` runs
(so `afterLock` observes it), is cleared by the subsequent `Unlock` before
`afterUnlock` fires (the `afterUnlock` event observes no tag), and `Lock()`
behaves exactly like `LockWithTag` except that the tag field is left alone:
every resulting state field other than `lockTag` coincides, as do blocking
and escaping. -/
theorem c5_tag_lifecycle (m : Mutex) (x : String) (now : Int)
    (hl : m.locked = false) (hr : m.readers = 0)
    (hnb : (Mutex.Unlock (Mutex.LockWithTag m x now).m).blocked = false) :
    (m.AfterLock ≠ HookSlot.unset →
      Event.afterLockInvoked (Option.some x) ∈ (Mutex.LockWithTag m x now).events) ∧
    (Mutex.LockWithTag m x now).m.lockTag = Option.some x ∧
    (Mutex.Unlock (Mutex.LockWithTag m x now).m).m.lockTag = Option.none ∧
    (m.AfterUnlock ≠ HookSlot.unset →
      (Mutex.Unlock (Mutex.LockWithTag m x now).m).events.filter Event.isAfterUnlockEvt =
        [Event.afterUnlockInvoked Option.none]) ∧
    (Mutex.Lock m now).m.lockTag = m.lockTag ∧
    ((Mutex.Lock m now).m.locked = (Mutex.LockWithTag m x now).m.locked ∧
     (Mutex.Lock m now).m.lockedAt = (Mutex.LockWithTag m x now).m.lockedAt ∧
     (Mutex.Lock m now).m.ticker = (Mutex.LockWithTag m x now).m.ticker ∧
     (Mutex.Lock m now).m.closeC = (Mutex.LockWithTag m x now).m.closeC ∧
     (Mutex.Lock m now).m.watchdogCount = (Mutex.LockWithTag m x now).m.watchdogCount ∧
     (Mutex.Lock m now).blocked = (Mutex.LockWithTag m x now).blocked ∧
     (Mutex.Lock m now).escaped = (Mutex.LockWithTag m x now).escaped) := by
  obtain ⟨hT1, -, hT3, -, -, -, hT7, -, -, -, -, hT12⟩ :=
    lock_spec m (Option.some x) now hl hr
  obtain ⟨hN1, -, hN3, -, -, -, -, -, -, -, -, -⟩ := lock_spec m Option.none now hl hr
  obtain ⟨-, hI2, -, hI4, -, hI6, hI7, hI8, -, -, -, -, -, -, hI15, hI16⟩ :=
    lock_vs_lockWithTag m x now
  obtain ⟨-, hU2, -, hU4⟩ := unlock_spec _ hT1 hnb
  refine ⟨?_, by simpa using hT3, hU2, ?_, by simpa using hN3,
    hI2, hI4, hI6, hI7, hI8, hI15, hI16⟩
  · intro ha
    show Event.afterLockInvoked (Option.some x) ∈ (Mutex.lock m (Option.some x) now).events
    rw [hT12, if_neg ha]
    by_cases hb : m.BeforeLock = HookSlot.unset <;> simp [hb]
  · intro ha
    show (Mutex.Unlock (Mutex.lock m (Option.some x) now).m).events.filter
      Event.isAfterUnlockEvt = [Event.afterUnlockInvoked Option.none]
    rw [hU4, hT7, if_neg ha]
    by_cases hb : m.BeforeUnlock = HookSlot.unset <;>
      simp [hb, Event.isAfterUnlockEvt]

/-- Witness for C5: a tagged cycle on the all-hooks mutex. -/
theorem c5_tag_lifecycle_witness :
    Event.afterLockInvoked (Option.some "x") ∈
      (Mutex.LockWithTag mAllHooks "x" 1).events ∧
    (Mutex.LockWithTag mAllHooks "x" 1).m.lockTag = Option.some "x" ∧
    (Mutex.Unlock (Mutex.LockWithTag mAllHooks "x" 1).m).m.lockTag = Option.none ∧
    (Mutex.Unlock (Mutex.LockWithTag mAllHooks "x" 1).m).events.filter
      Event.isAfterUnlockEvt = [Event.afterUnlockInvoked Option.none] ∧
    (Mutex.Lock mAllHooks 1).m.lockTag = mAllHooks.lockTag := by
  have h := c5_tag_lifecycle mAllHooks "x" 1 rfl rfl rfl
  exact ⟨h.1 (by decide), h.2.1, h.2.2.1, h.2.2.2.1 (by decide), h.2.2.2.2.1⟩

/-- Mutex states reachable at operation boundaries: start from
`NewMutex p` and perform any sequence of `lock`/`Unlock` calls, where the
sequential caller only locks an unheld mutex and only unlocks a held one. -/
inductive Reach (p : MutexParams) : Mutex → Prop where
  | init : Reach p (NewMutex p)
  | lockStep (m : Mutex) (tag : Option String) (now : Int) (hm : Reach p m)
      (hl : m.locked = false) (hr : m.readers = 0) :
      Reach p (Mutex.lock m tag now).m
  | unlockStep (m : Mutex) (hm : Reach p m) (hl : m.locked = true) :
      Reach p (Mutex.Unlock m).m

/-- Induction invariant for the watchdog-lifetime claim: along every
reachable state, the `AfterLock`/`BeforeUnlock` slots keep the value the
constructor installed, `hwt` keeps recording whether the configured timeout
was positive, no readers exist, and the number of alive watchdog tasks is
`1` exactly when the lock is held with default callbacks and a positive
timeout, else `0`. -/
def C6Inv (p : MutexParams) (m : Mutex) : Prop :=
  m.AfterLock =
    (if p.SetDefaultCallbacks = true then HookSlot.defaultHook else HookSlot.unset) ∧
  m.BeforeUnlock =
    (if p.SetDefaultCallbacks = true then HookSlot.defaultHook else HookSlot.unset) ∧
  m.hwt = decide (0 < p.Timeout) ∧
  m.readers = 0 ∧
  m.watchdogCount =
    (if m.locked = true ∧ p.SetDefaultCallbacks = true ∧ 0 < p.Timeout then 1 else 0)

lemma c6_inv_holds (p : MutexParams) (m : Mutex) (h : Reach p m) : C6Inv p m := by
  induction h with
  | init =>
    unfold C6Inv
    by_cases hs : p.SetDefaultCallbacks = true <;>
      by_cases ht : 0 < p.Timeout <;> simp [NewMutex, hs, ht]
  | lockStep m tag now hm hl hr ih =>
    obtain ⟨i1, i2, i3, i4, i5⟩ := ih
    obtain ⟨hLk, hRd, -, -, hAL, hBU, -, -, hh, hcnt, -, -⟩ := lock_spec m tag now hl hr
    refine ⟨by rw [hAL]; exact i1, by rw [hBU]; exact i2, by rw [hh]; exact i3,
      by rw [hRd]; exact i4, ?_⟩
    by_cases hs : p.SetDefaultCallbacks = true <;> by_cases ht : 0 < p.Timeout <;>
      simp [hcnt, hLk, i1, i3, i5, hl, hs, ht]
  | unlockStep m hm hl ih =>
    obtain ⟨i1, i2, i3, i4, i5⟩ := ih
    obtain ⟨-, hAL, hBU, -, -, hh, hRd, hcnt, hBlk, hLk⟩ := unlock_state_spec m
    by_cases hs : p.SetDefaultCallbacks = true <;> by_cases ht : 0 < p.Timeout <;>
      (have hC : ¬(m.BeforeUnlock = HookSlot.defaultHook ∧ m.hwt = true ∧
          m.watchdogCount = 0) := by simp [i2, i3, i5, hl, hs, ht]
       have hnb : (Mutex.Unlock m).blocked = false := by
         cases hb : (Mutex.Unlock m).blocked
         · rfl
         · exact absurd (hBlk.mp hb) hC
       exact ⟨by rw [hAL]; exact i1, by rw [hBU]; exact i2, by rw [hh]; exact i3,
         by rw [hRd]; exact i4,
         by simp [hcnt, hLk hnb, i2, i3, i5, hl, hs, ht]⟩)

/-- C6: for a default-callback EL, at every operation boundary of every
lock/unlock execution, at most one watchdog task is alive, and exactly one
is alive precisely when the lock is currently held with a positive
configured timeout and default callbacks enabled. -/
theorem c6_watchdog_singleton (p : MutexParams) (m : Mutex) (h : Reach p m) :
    m.watchdogCount ≤ 1 ∧
    (m.watchdogCount = 1 ↔
      (m.locked = true ∧ p.SetDefaultCallbacks = true ∧ 0 < p.Timeout)) := by
  obtain ⟨-, -, -, -, hc⟩ := c6_inv_holds p m h
  rw [hc]
  by_cases hcond : m.locked = true ∧ p.SetDefaultCallbacks = true ∧ 0 < p.Timeout <;>
    simp [hcond]

/-- Witness for C6: the state right after `Lock` on a default-callback EL
with timeout 5 — one watchdog task, and the iff holds. -/
theorem c6_watchdog_singleton_witness :
    (Mutex.lock (NewMutex ⟨"w", true, false, 5⟩) Option.none 0).m.watchdogCount ≤ 1 ∧
    ((Mutex.lock (NewMutex ⟨"w", true, false, 5⟩) Option.none 0).m.watchdogCount = 1 ↔
      ((Mutex.lock (NewMutex ⟨"w", true, false, 5⟩) Option.none 0).m.locked = true ∧
        (⟨"w", true, false, 5⟩ : MutexParams).SetDefaultCallbacks = true ∧
        0 < (⟨"w", true, false, 5⟩ : MutexParams).Timeout)) :=
  c6_watchdog_singleton ⟨"w", true, false, 5⟩ _
    (Reach.lockStep (NewMutex ⟨"w", true, false, 5⟩) Option.none 0 Reach.init rfl rfl)

/-- Parameters of the C1 scenario: default callbacks enabled, a positive
warning timeout. -/
def pC1 : MutexParams := ⟨"m", true, false, 5⟩

/-- C1: the claim fails because the code is wrong.  `NewMutex` never copies
`p.Timeout` into the `timeout` field, so with default callbacks and
`warnAfter = 5 > 0`: the `timeout` field stays `0`; the first `Lock()`
panics out to its caller (the default `AfterLock` calls
`ticker.Reset(m.timeout) = Reset(0)`, which panics); and the watchdog's
threshold check compares the hold duration against `0`, so a tick during a
hold of duration `1 < 5` would already emit a warning, contradicting
"holding for duration < T triggers zero warnings". -/
theorem c1_watchdog_timeout_never_assigned :
    0 < pC1.Timeout ∧
    (NewMutex pC1).timeout = 0 ∧
    (Mutex.Lock (NewMutex pC1) 100).escaped = Option.some tickerResetPanicMsg ∧
    watchdogTickWarns (Mutex.Lock (NewMutex pC1) 100).m 101 = true ∧
    (101 : Int) - 100 < pC1.Timeout := by
  refine ⟨by decide, rfl, rfl, rfl, by decide⟩

/-- C7: a zero timeout disables the watchdog: construction succeeds (it is a
total function raising nothing), no ticker and no cancellation channel are
created, and a full Lock/Unlock cycle neither arms nor disarms any watchdog
task, leaves `lockedAt` zero, blocks nowhere and raises nothing. -/
theorem c7_zero_timeout_disables_watchdog (p : MutexParams) (tag : Option String)
    (now : Int) (h0 : p.Timeout = 0) :
    (NewMutex p).ticker = Option.none ∧
    (NewMutex p).closeC = false ∧
    (Mutex.lock (NewMutex p) tag now).m.watchdogCount = 0 ∧
    (Mutex.lock (NewMutex p) tag now).m.ticker = Option.none ∧
    (Mutex.lock (NewMutex p) tag now).m.lockedAt = Option.none ∧
    (Mutex.lock (NewMutex p) tag now).m.closeC = false ∧
    (Mutex.lock (NewMutex p) tag now).escaped = Option.none ∧
    (Mutex.lock (NewMutex p) tag now).blocked = false ∧
    (Mutex.Unlock (Mutex.lock (NewMutex p) tag now).m).m.watchdogCount = 0 ∧
    (Mutex.Unlock (Mutex.lock (NewMutex p) tag now).m).blocked = false ∧
    (Mutex.Unlock (Mutex.lock (NewMutex p) tag now).m).escaped = Option.none := by
  cases p with
  | mk Name SetDefaultCallbacks AddStackTrace Timeout =>
    subst h0
    cases SetDefaultCallbacks <;> cases tag <;>
      simp [NewMutex, Mutex.lock, Mutex.afterLockStep, Mutex.Unlock, Mutex.unlockRest]

/-- Witness for C7 at a concrete configuration. -/
theorem c7_zero_timeout_disables_watchdog_witness :
    (NewMutex ⟨"z", true, false, 0⟩).ticker = Option.none ∧
    (NewMutex ⟨"z", true, false, 0⟩).closeC = false ∧
    (Mutex.lock (NewMutex ⟨"z", true, false, 0⟩) Option.none 7).m.watchdogCount = 0 ∧
    (Mutex.lock (NewMutex ⟨"z", true, false, 0⟩) Option.none 7).m.ticker = Option.none ∧
    (Mutex.lock (NewMutex ⟨"z", true, false, 0⟩) Option.none 7).m.lockedAt = Option.none ∧
    (Mutex.lock (NewMutex ⟨"z", true, false, 0⟩) Option.none 7).m.closeC = false ∧
    (Mutex.lock (NewMutex ⟨"z", true, false, 0⟩) Option.none 7).escaped = Option.none ∧
    (Mutex.lock (NewMutex ⟨"z", true, false, 0⟩) Option.none 7).blocked = false ∧
    (Mutex.Unlock (Mutex.lock (NewMutex ⟨"z", true, false, 0⟩) Option.none 7).m).m.watchdogCount = 0 ∧
    (Mutex.Unlock (Mutex.lock (NewMutex ⟨"z", true, false, 0⟩) Option.none 7).m).blocked = false ∧
    (Mutex.Unlock (Mutex.lock (NewMutex ⟨"z", true, false, 0⟩) Option.none 7).m).escaped = Option.none :=
  c7_zero_timeout_disables_watchdog ⟨"z", true, false, 0⟩ Option.none 7 rfl

/-- C8: shared acquisitions and releases touch neither the tag nor any
watchdog state: `RLock` and `RUnlock` leave `lockTag`, `lockedAt`,
`timeout`, `ticker`, the cancellation channel and the count of alive
watchdog tasks unchanged, in every state and on every branch (including the
recovered misuse fault). -/
theorem c8_shared_path_frame (w : RWMutex) :
    (RWMutex.RLock w).w.mtx.lockTag = w.mtx.lockTag ∧
    (RWMutex.RLock w).w.mtx.lockedAt = w.mtx.lockedAt ∧
    (RWMutex.RLock w).w.mtx.timeout = w.mtx.timeout ∧
    (RWMutex.RLock w).w.mtx.ticker = w.mtx.ticker ∧
    (RWMutex.RLock w).w.mtx.closeC = w.mtx.closeC ∧
    (RWMutex.RLock w).w.mtx.watchdogCount = w.mtx.watchdogCount ∧
    (RWMutex.RUnlock w).w.mtx.lockTag = w.mtx.lockTag ∧
    (RWMutex.RUnlock w).w.mtx.lockedAt = w.mtx.lockedAt ∧
    (RWMutex.RUnlock w).w.mtx.timeout = w.mtx.timeout ∧
    (RWMutex.RUnlock w).w.mtx.ticker = w.mtx.ticker ∧
    (RWMutex.RUnlock w).w.mtx.closeC = w.mtx.closeC ∧
    (RWMutex.RUnlock w).w.mtx.watchdogCount = w.mtx.watchdogCount := by
  cases hl : w.mtx.locked <;> cases hr : w.mtx.readers <;>
    simp [RWMutex.RLock, RWMutex.RUnlock, hl, hr]

/-- C9: on a full bounded queue, `Push` reports `ErrQueueOverflowed` in
normal mode leaving the contents unchanged, and in drop mode evicts the
oldest element and appends the new one without error; `Pop` on an empty
queue reports `ErrQueueIsEmpty` leaving the queue unchanged. -/
theorem c9_queue_full_empty {α : Type} (q : Queue α) (x : α) :
    (0 < q.maxLen → ¬ q.len < q.maxLen → q.mode = modeNormal →
      Queue.Push q x = (q, Option.some QErr.ErrQueueOverflowed)) ∧
    (0 < q.maxLen → ¬ q.len < q.maxLen → q.mode = modeDrop →
      Queue.Push q x = ({ q with queue := q.queue.tail ++ [x] }, Option.none)) ∧
    (q.queue = [] →
      Queue.Pop q = (Option.none, q, Option.some QErr.ErrQueueIsEmpty)) := by
  refine ⟨?_, ?_, ?_⟩
  · intro hb hfull hm
    have hz : ¬ q.maxLen = 0 := by omega
    simp [Queue.Push, hz, hfull, hm]
  · intro hb hfull hm
    have hz : ¬ q.maxLen = 0 := by omega
    have hd : ¬ q.mode = modeNormal := by
      rw [hm]; simp [modeNormal, modeDrop]
    cases hq : q.queue with
    | nil =>
      exfalso
      have : q.len = 0 := by simp [Queue.len, hq]
      omega
    | cons y rest =>
      simp [Queue.Push, hz, hfull, hd, hm, Queue.pop, hq, modeNormal, modeDrop]
  · intro he
    simp [Queue.Pop, Queue.pop, he]

/-- Witness for C9 on concrete queues: a full limited queue in normal mode,
a full dropping queue, and an empty queue. -/
theorem c9_queue_full_empty_witness :
    Queue.Push (⟨[7], 1, modeNormal⟩ : Queue Int) 9 =
      ((⟨[7], 1, modeNormal⟩ : Queue Int), Option.some QErr.ErrQueueOverflowed) ∧
    Queue.Push (⟨[7], 1, modeDrop⟩ : Queue Int) 9 =
      ((⟨[9], 1, modeDrop⟩ : Queue Int), Option.none) ∧
    Queue.Pop (⟨[], 3, modeNormal⟩ : Queue Int) =
      (Option.none, (⟨[], 3, modeNormal⟩ : Queue Int), Option.some QErr.ErrQueueIsEmpty) := by
  refine ⟨(c9_queue_full_empty ⟨[7], 1, modeNormal⟩ 9).1 (by decide) (by decide) rfl,
    ?_, (c9_queue_full_empty (⟨[], 3, modeNormal⟩ : Queue Int) 9).2.2 rfl⟩
  have h := (c9_queue_full_empty (⟨[7], 1, modeDrop⟩ : Queue Int) 9).2.1
    (by decide) (by decide) rfl
  simpa using h

/-- C10 fails on the code as stated: Go `int` arithmetic wraps, so at
`count = 2^63 - 1` an `Inc` leaves `-(2^63)`, not `count + 1`. -/
theorem c10_counter_wrap_counterexample :
    (Counter.Inc (NewCounter (2 ^ 63 - 1))).1 = 2 ^ 63 - 1 ∧
    (Counter.Inc (NewCounter (2 ^ 63 - 1))).2.count = -(2 ^ 63) ∧
    (NewCounter (2 ^ 63 - 1)).count + 1 = 2 ^ 63 ∧
    ¬((-(2 ^ 63) : Int) = 2 ^ 63) := by
  refine ⟨rfl, ?_, by norm_num [NewCounter], by norm_num⟩
  norm_num [Counter.Inc, NewCounter, i64wrap]

/-- C10 as amended: every mutating counter operation returns the
pre-mutation value; afterwards the count is the two's-complement 64-bit
reduction of `value+1`, `value-1`, `value+i`, or exactly `i` for `Set`;
whenever the mathematical result fits in a signed 64-bit integer it is
exact; `Get` returns the current value and leaves the counter unchanged. -/
theorem c10_counter_ops (c : Counter) (i : Int) :
    (Counter.Inc c).1 = c.count ∧
    (Counter.Inc c).2.count = i64wrap (c.count + 1) ∧
    (Counter.Dec c).1 = c.count ∧
    (Counter.Dec c).2.count = i64wrap (c.count - 1) ∧
    (Counter.Add c i).1 = c.count ∧
    (Counter.Add c i).2.count = i64wrap (c.count + i) ∧
    (Counter.Set c i).1 = c.count ∧
    (Counter.Set c i).2.count = i ∧
    (Counter.Get c).1 = c.count ∧
    (Counter.Get c).2 = c ∧
    (-(2 ^ 63) ≤ c.count + 1 → c.count + 1 < 2 ^ 63 →
      (Counter.Inc c).2.count = c.count + 1) ∧
    (-(2 ^ 63) ≤ c.count - 1 → c.count - 1 < 2 ^ 63 →
      (Counter.Dec c).2.count = c.count - 1) ∧
    (-(2 ^ 63) ≤ c.count + i → c.count + i < 2 ^ 63 →
      (Counter.Add c i).2.count = c.count + i) := by
  refine ⟨rfl, rfl, rfl, rfl, rfl, rfl, rfl, rfl, rfl, rfl, ?_, ?_, ?_⟩ <;>
    intro h1 h2 <;> exact i64wrap_eq_self h1 h2

/-- Witness for C10's amended statement at a small counter. -/
theorem c10_counter_ops_witness :
    (Counter.Inc (NewCounter 5)).2.count = (NewCounter 5).count + 1 ∧
    (Counter.Dec (NewCounter 5)).2.count = (NewCounter 5).count - 1 ∧
    (Counter.Add (NewCounter 5) 3).2.count = (NewCounter 5).count + 3 := by
  have h := c10_counter_ops (NewCounter 5) 3
  exact ⟨h.2.2.2.2.2.2.2.2.2.2.1 (by norm_num [NewCounter]) (by norm_num [NewCounter]),
    h.2.2.2.2.2.2.2.2.2.2.2.1 (by norm_num [NewCounter]) (by norm_num [NewCounter]),
    h.2.2.2.2.2.2.2.2.2.2.2.2 (by norm_num [NewCounter]) (by norm_num [NewCounter])⟩

end Synced
